import Mathlib

/-!
Shallow embedding of the agent control loop in
`src/KnowYourStats/agent/agent_core.py` (class `AgenticAI`).

Modelling conventions:

* A response from the external text-generation service is a `Resp`: its raw
  text together with the outcome of `json.loads` on that text (`none` when
  decoding raises, `some v` when it returns the JSON value `v`).  The JSON
  values themselves are modelled by `JVal`; a Python `dict` is a `jobj` field
  list (the decoder collapses duplicate keys, so lookup of the first match is
  the dict lookup).
* The service is modelled as an environment `Env : Nat → Resp` giving the
  response to the k-th external call of the run; every `self.client.messages.create`
  consumes one index.  Prompt contents only influence the response through the
  environment, so parameters that only shape prompts (`plan`, `iteration`,
  `result`, the query and the dataset context) are carried but not inspected.
* Python runtime errors raised by subscripting and attribute access are
  modelled by `Except PyErr`; a bare `except:` around an expression is
  modelled by matching on that `Except`.
* `settings.MAX_AGENT_ITERATIONS` (read both in `run` and in
  `_should_continue_investigation`) is the field `maxIterations` of
  `AgentConfig`; it is a Python int, hence `Int`.
* The `while` loop of `run` increments `iteration` once per pass and is
  guarded by `iteration < max_iterations`, so it makes at most
  `maxIterations.toNat` passes; `investigationLoop` carries that number as
  structural fuel, and `investigationLoop_extra_fuel` proves the fuel is
  immaterial once it covers the remaining budget, so the fuelled function is
  the loop's exact semantics.
-/

/-- JSON values as returned by a successful `json.loads`. -/
inductive JVal where
  | jnull : JVal
  | jbool (b : Bool) : JVal
  | jnum (n : Int) : JVal
  | jstr (s : String) : JVal
  | jarr (elems : List JVal) : JVal
  | jobj (fields : List (String × JVal)) : JVal

/-- Python `v == lit` for a string literal `lit`: true exactly when `v` is that
string (no other JSON value compares equal to a `str` in Python). -/
def JVal.isStr : JVal → String → Bool
  | .jstr t, s => t == s
  | _, _ => false

/-- Python runtime errors the embedded code can raise. -/
inductive PyErr where
  | keyError : PyErr
  | typeError : PyErr
  | attributeError : PyErr
  deriving DecidableEq

/-- Python subscripting `v[key]` with a string key: `KeyError` when a dict
lacks the key, `TypeError` when `v` is not a dict. -/
def pySub : JVal → String → Except PyErr JVal
  | .jobj fs, key =>
    match fs.lookup key with
    | some v => Except.ok v
    | none => Except.error PyErr.keyError
  | _, _ => Except.error PyErr.typeError

/-- Python `v.get(key, default)`: defined on dicts, `AttributeError` otherwise. -/
def pyDictGet : JVal → String → JVal → Except PyErr JVal
  | .jobj fs, key, dflt => Except.ok ((fs.lookup key).getD dflt)
  | _, _, _ => Except.error PyErr.attributeError

/-- Python truthiness of a JSON-decoded value, as used by `if ...:`. -/
def truthy : JVal → Bool
  | .jnull => false
  | .jbool b => b
  | .jnum n => n != 0
  | .jstr s => s != ""
  | .jarr elems => !elems.isEmpty
  | .jobj fields => !fields.isEmpty

/-- One response of the external service: `text` is `response.content[0].text`,
`decoded` is the outcome of `json.loads(text)` (`none` when it raises). -/
structure Resp where
  text : String
  decoded : Option JVal

/-- The environment: the response delivered to the k-th external call. -/
abbrev Env := Nat → Resp

/-- Configuration read from Django settings during a run. -/
structure AgentConfig where
  maxIterations : Int

/-- One entry of `self.reasoning_trace`. -/
inductive TraceEntry where
  | planning (content : JVal) : TraceEntry
  | investigation (iteration : Int) (action : JVal) (result : JVal) : TraceEntry

/-- The mutable accumulators of an `AgenticAI` instance during `run`.
`findings` is the dict `self.findings` as an append-only key/value list
(keys `iteration_1, iteration_2, ...` are pairwise distinct). -/
structure AgentState where
  reasoning_trace : List TraceEntry
  tools_used : List JVal
  findings : List (String × JVal)

/-- The dict returned by `AgenticAI.run`. -/
structure AgentRunResult where
  report : String
  reasoning_trace : List TraceEntry
  tools_used : List JVal
  findings : List (String × JVal)

/-- `AgenticAI._create_analysis_plan`: one external call; `json.loads` of the
response on success, else the raw-text fallback dict. -/
def create_analysis_plan (env : Env) (k : Nat) : JVal × Nat :=
  let resp := env k
  let plan : JVal :=
    match resp.decoded with
    | some v => v
    | none => JVal.jobj [("raw_plan", JVal.jstr resp.text)]
  (plan, k + 1)

/-- `AgenticAI._decide_next_action(plan, iteration)`: one external call;
`json.loads` of the response on success, else the completion fallback dict.
`plan` and `iteration` only shape the prompt. -/
def decide_next_action (env : Env) (plan : JVal) (iteration : Int) (k : Nat) :
    JVal × Nat :=
  let resp := env k
  let action : JVal :=
    match resp.decoded with
    | some v => v
    | none =>
      JVal.jobj
        [("action", JVal.jstr "complete"),
         ("reasoning", JVal.jstr "Unable to parse action, completing analysis")]
  (action, k + 1)

/-- `AgenticAI._perform_analysis(action)`: one external call; `json.loads` of
the response on success, else the insight raw-text fallback dict. -/
def perform_analysis (env : Env) (k : Nat) : JVal × Nat :=
  let resp := env k
  let result : JVal :=
    match resp.decoded with
    | some v => v
    | none => JVal.jobj [("insight", JVal.jstr resp.text)]
  (result, k + 1)

/-- `AgenticAI._execute_action(action)`: reads `action.get('action', 'analyze')`,
dispatches on it, appends it to `self.tools_used`, and returns the result.
Only the `analyze` branch performs an external call. -/
def execute_action (env : Env) (st : AgentState) (k : Nat) (action : JVal) :
    Except PyErr (AgentState × JVal × Nat) :=
  match pyDictGet action "action" (JVal.jstr "analyze") with
  | Except.error e => Except.error e
  | Except.ok action_type =>
    let rk : JVal × Nat :=
      if action_type.isStr "analyze" then perform_analysis env k
      else if action_type.isStr "calculate" then
        (JVal.jobj [("calculation", JVal.jstr "performed"), ("action", action)], k)
      else if action_type.isStr "compare" then
        (JVal.jobj [("comparison", JVal.jstr "completed"), ("action", action)], k)
      else if action_type.isStr "investigate_anomaly" then
        (JVal.jobj [("anomaly_investigation", JVal.jstr "completed"), ("action", action)], k)
      else (JVal.jobj [("status", JVal.jstr "unknown_action")], k)
    Except.ok (⟨st.reasoning_trace, st.tools_used ++ [action_type], st.findings⟩, rk.1, rk.2)

/-- `AgenticAI._should_continue_investigation(result, iteration)`: returns the
Python `False` object without any external call when
`iteration >= MAX_AGENT_ITERATIONS - 1`; otherwise makes one call and returns
`decision.get('continue', False)`, where both a `json.loads` failure and the
`AttributeError` of `.get` on a non-dict are swallowed by the bare `except:`
into `False`.  `result` only shapes the prompt. -/
def should_continue_investigation (cfg : AgentConfig) (env : Env) (result : JVal)
    (iteration : Int) (k : Nat) : JVal × Nat :=
  if iteration ≥ cfg.maxIterations - 1 then (JVal.jbool false, k)
  else
    let resp := env k
    let decision : JVal :=
      match resp.decoded with
      | some v =>
        match pyDictGet v "continue" (JVal.jbool false) with
        | Except.ok w => w
        | Except.error _ => JVal.jbool false
      | none => JVal.jbool false
    (decision, k + 1)

/-- `AgenticAI._synthesize_report()`: one external call, returns the raw text. -/
def synthesize_report (env : Env) (k : Nat) : String × Nat :=
  ((env k).text, k + 1)

/-- The `while not investigation_complete and iteration < max_iterations` loop
of `AgenticAI.run`, with the remaining iteration budget as structural fuel
(see the header comment; `investigationLoop_extra_fuel` shows adequate fuel is
immaterial).  `fuel = 0` returns like a false guard.  Each pass: increment
`iteration`; decide the next action; read `next_action['action']` (this
subscript can raise and the raise propagates); break on `'complete'`; execute;
record the finding under `iteration_<i>` and append the investigation trace
entry; continue exactly when the continuation decision is truthy. -/
def investigationLoop (cfg : AgentConfig) (env : Env) (plan : JVal) :
    Nat → Int → AgentState → Nat → Except PyErr (AgentState × Nat)
  | 0, _, st, k => Except.ok (st, k)
  | fuel + 1, iteration, st, k =>
    if iteration < cfg.maxIterations then
      let it : Int := iteration + 1
      let dk := decide_next_action env plan it k
      match pySub dk.1 "action" with
      | Except.error e => Except.error e
      | Except.ok a =>
        if a.isStr "complete" then Except.ok (st, dk.2)
        else
          match execute_action env st dk.2 dk.1 with
          | Except.error e => Except.error e
          | Except.ok (st2, result, k2) =>
            let st3 : AgentState :=
              ⟨st2.reasoning_trace ++ [TraceEntry.investigation it dk.1 result],
               st2.tools_used,
               st2.findings ++ [("iteration_" ++ toString it, result)]⟩
            let ck := should_continue_investigation cfg env result it k2
            if truthy ck.1 then investigationLoop cfg env plan fuel it st3 ck.2
            else Except.ok (st3, ck.2)
    else Except.ok (st, k)

/-- `AgenticAI.run()`: planning (first trace entry), the investigation loop
starting from `iteration = 0`, then synthesis; returns the result dict. -/
def AgenticAI.run (cfg : AgentConfig) (env : Env) : Except PyErr AgentRunResult :=
  let pk := create_analysis_plan env 0
  let st0 : AgentState := ⟨[TraceEntry.planning pk.1], [], []⟩
  match investigationLoop cfg env pk.1 cfg.maxIterations.toNat 0 st0 pk.2 with
  | Except.error e => Except.error e
  | Except.ok (st, k1) =>
    let rep := synthesize_report env k1
    Except.ok ⟨rep.1, st.reasoning_trace, st.tools_used, st.findings⟩

/-- Number of trace entries whose phase is `investigation`. -/
def countInvest : List TraceEntry → Nat
  | [] => 0
  | TraceEntry.investigation _ _ _ :: rest => countInvest rest + 1
  | TraceEntry.planning _ :: rest => countInvest rest

/-- The investigation trace entry recorded for one executed iteration
`(index, action, result)`. -/
def investEntry : Int × JVal × JVal → TraceEntry
  | (i, a, r) => TraceEntry.investigation i a r

/-- The finding recorded for one executed iteration. -/
def findingEntry : Int × JVal × JVal → String × JVal
  | (i, _, r) => ("iteration_" ++ toString i, r)

/-- The iteration indices of a list of executed iterations are consecutive
starting at `n`. -/
def chainFrom : Int → List (Int × JVal × JVal) → Prop
  | _, [] => True
  | n, (i, _, _) :: rest => i = n ∧ chainFrom (n + 1) rest

/-- Every entry of the list is an investigation entry and their iteration
indices are consecutive starting at `n`. -/
def investChainFrom : Int → List TraceEntry → Prop
  | _, [] => True
  | n, TraceEntry.investigation i _ _ :: rest => i = n ∧ investChainFrom (n + 1) rest
  | _, TraceEntry.planning _ :: _ => False

/-- A response is action-safe when it fails to decode or decodes to an object
carrying an `action` key, so the subscript `next_action['action']` in the
loop cannot raise. -/
def actionSafe (r : Resp) : Prop :=
  r.decoded = none ∨
    ∃ fs v, r.decoded = some (JVal.jobj fs) ∧ fs.lookup "action" = some v

/-- Environment for the C1 counterexample: the action-selection response
decodes to a JSON object with no `action` key. -/
def envC1cx : Env := fun k =>
  match k with
  | 1 => ⟨"json without the key", some (JVal.jobj [("observation", JVal.jnum 1)])⟩
  | _ => ⟨"plain text", none⟩

/-- Environment for the C1 witness: every response fails to decode. -/
def envC1w : Env := fun _ => ⟨"no json here", none⟩

/-- Environment for the C2 witness: the evaluator, if called, would say to
keep going. -/
def envC2w : Env := fun _ => ⟨"w", some (JVal.jobj [("continue", JVal.jbool true)])⟩

/-- Environment for the C3 counterexample: the first action-selection response
decodes to a completion action. -/
def envC3cx : Env := fun k =>
  match k with
  | 1 => ⟨"done", some (JVal.jobj [("action", JVal.jstr "complete")])⟩
  | _ => ⟨"t3", none⟩

/-- Environment for the C3 witness: every response fails to decode. -/
def envC3w : Env := fun _ => ⟨"w3", none⟩

/-- Result of the run over `envC3w` with `maxIterations = 2`. -/
def resC3w : AgentRunResult :=
  ⟨"w3", [TraceEntry.planning (JVal.jobj [("raw_plan", JVal.jstr "w3")])], [], []⟩

/-- Environment for the C4 counterexample: with `maxIterations = 1` the first
action-selection response decodes to an analyze action. -/
def envC4cx : Env := fun k =>
  match k with
  | 1 => ⟨"a", some (JVal.jobj [("action", JVal.jstr "analyze")])⟩
  | 2 => ⟨"insight text", none⟩
  | _ => ⟨"r4", none⟩

/-- Environment for the C4 witness: every response fails to decode. -/
def envC4w : Env := fun _ => ⟨"w4", none⟩

/-- Result of the run over `envC4w` with `maxIterations = 1`. -/
def resC4w : AgentRunResult :=
  ⟨"w4", [TraceEntry.planning (JVal.jobj [("raw_plan", JVal.jstr "w4")])], [], []⟩

/-- Environment for the C5 counterexample: the first action-selection response
decodes to a completion action. -/
def envC5cx : Env := fun k =>
  match k with
  | 1 => ⟨"c", some (JVal.jobj [("action", JVal.jstr "complete")])⟩
  | _ => ⟨"s5", none⟩

/-- Environment for the C5 witness: the decoded completion action carries an
extra `reasoning` field besides its kind. -/
def envC5w : Env := fun k =>
  match k with
  | 1 => ⟨"c", some (JVal.jobj [("action", JVal.jstr "complete"),
                                ("reasoning", JVal.jstr "all questions answered")])⟩
  | _ => ⟨"w5", none⟩

/-- Environment for the C6 counterexample: the response decodes to valid JSON
that does not match the expected action schema. -/
def envC6cx : Env := fun _ => ⟨"json", some (JVal.jobj [("target", JVal.jstr "revenue")])⟩

/-- Environment for the C6 witness: the response fails to decode. -/
def envC6w : Env := fun _ => ⟨"not json", none⟩

/-- Environment for the C7 witness (never consulted by the unknown branch). -/
def envC7w : Env := fun _ => ⟨"seven", none⟩

/-- Environment for the C8 witness: two executed iterations, then the hard
ceiling of `maxIterations = 3` stops the loop. -/
def envC8w : Env := fun k =>
  match k with
  | 1 => ⟨"a1", some (JVal.jobj [("action", JVal.jstr "calculate")])⟩
  | 2 => ⟨"c1", some (JVal.jobj [("continue", JVal.jbool true)])⟩
  | 3 => ⟨"a2", some (JVal.jobj [("action", JVal.jstr "compare")])⟩
  | _ => ⟨"rep8", none⟩

/-- Result of the run over `envC8w` with `maxIterations = 3`. -/
def resC8w : AgentRunResult :=
  ⟨"rep8",
   [TraceEntry.planning (JVal.jobj [("raw_plan", JVal.jstr "rep8")]),
    TraceEntry.investigation 1 (JVal.jobj [("action", JVal.jstr "calculate")])
      (JVal.jobj [("calculation", JVal.jstr "performed"),
                  ("action", JVal.jobj [("action", JVal.jstr "calculate")])]),
    TraceEntry.investigation 2 (JVal.jobj [("action", JVal.jstr "compare")])
      (JVal.jobj [("comparison", JVal.jstr "completed"),
                  ("action", JVal.jobj [("action", JVal.jstr "compare")])])],
   [JVal.jstr "calculate", JVal.jstr "compare"],
   [("iteration_1",
     JVal.jobj [("calculation", JVal.jstr "performed"),
                ("action", JVal.jobj [("action", JVal.jstr "calculate")])]),
    ("iteration_2",
     JVal.jobj [("comparison", JVal.jstr "completed"),
                ("action", JVal.jobj [("action", JVal.jstr "compare")])])]⟩

/-- Environment for the C9 witness. -/
def envC9w : Env := fun _ => ⟨"ins9", none⟩

/-- Environment for the C10 witness: the evaluator response decodes to an
object that lacks the `continue` key. -/
def envC10w : Env := fun _ => ⟨"obj", some (JVal.jobj [("reasoning", JVal.jstr "done")])⟩

/-- Concatenation splits the investigation-entry count. -/
theorem countInvest_append (l1 l2 : List TraceEntry) :
    countInvest (l1 ++ l2) = countInvest l1 + countInvest l2 := by
  induction l1 with
  | nil => simp [countInvest]
  | cons e rest ih =>
    cases e with
    | planning p => simp [countInvest, ih]
    | investigation i a r => simp [countInvest, ih]; omega

/-- Every recorded step contributes exactly one investigation entry. -/
theorem countInvest_map_investEntry (steps : List (Int × JVal × JVal)) :
    countInvest (steps.map investEntry) = steps.length := by
  induction steps with
  | nil => simp [countInvest]
  | cons x rest ih =>
    obtain ⟨i, a, r⟩ := x
    simp [investEntry, countInvest, ih]

/-- A successful `_execute_action` leaves the trace and the findings untouched
and appends exactly one entry to `tools_used`. -/
theorem execute_action_effect (env : Env) (st : AgentState) (k : Nat)
    (action : JVal) (st2 : AgentState) (r : JVal) (k2 : Nat)
    (h : execute_action env st k action = Except.ok (st2, r, k2)) :
    st2.reasoning_trace = st.reasoning_trace ∧ st2.findings = st.findings ∧
      st2.tools_used.length = st.tools_used.length + 1 := by
  unfold execute_action at h
  split at h
  · exact absurd h (by simp)
  · simp only [Except.ok.injEq, Prod.mk.injEq] at h
    obtain ⟨h1, -, -⟩ := h
    subst h1
    simp

/-- Characterization of a completed investigation loop: the final accumulators
extend the initial ones by one trace entry, one finding and one tool per
executed iteration, the iteration indices are consecutive from
`iteration + 1`, and at most `fuel` iterations executed. -/
theorem investigationLoop_spec (cfg : AgentConfig) (env : Env) (plan : JVal) :
    ∀ (fuel : Nat) (iteration : Int) (st : AgentState) (k : Nat)
      (st2 : AgentState) (k2 : Nat),
      investigationLoop cfg env plan fuel iteration st k = Except.ok (st2, k2) →
      ∃ steps : List (Int × JVal × JVal),
        st2.reasoning_trace = st.reasoning_trace ++ steps.map investEntry ∧
        st2.findings = st.findings ++ steps.map findingEntry ∧
        st2.tools_used.length = st.tools_used.length + steps.length ∧
        chainFrom (iteration + 1) steps ∧
        steps.length ≤ fuel := by
  intro fuel
  induction fuel with
  | zero =>
    intro iteration st k st2 k2 h
    simp only [investigationLoop, Except.ok.injEq, Prod.mk.injEq] at h
    obtain ⟨h1, -⟩ := h
    subst h1
    exact ⟨[], by simp [chainFrom]⟩
  | succ fuel ih =>
    intro iteration st k st2 k2 h
    simp only [investigationLoop] at h
    split at h
    · -- guard true
      split at h
      · -- the subscript raised
        exact absurd h (by simp)
      · -- subscript succeeded
        split at h
        · -- complete: loop exits with the state unchanged
          simp only [Except.ok.injEq, Prod.mk.injEq] at h
          obtain ⟨h1, -⟩ := h
          subst h1
          exact ⟨[], by simp [chainFrom]⟩
        · split at h
          · -- execution raised
            exact absurd h (by simp)
          · -- executed; split on the continuation decision
            rename_i heq1 a hnc stE resE kE hexecEq
            obtain ⟨hTrE, hFE, hToolsE⟩ :=
              execute_action_effect _ _ _ _ _ _ _ hexecEq
            split at h
            · -- continuation truthy: the loop recurses
              obtain ⟨steps, hTr, hF, hTools, hChain, hLen⟩ := ih _ _ _ _ _ h
              refine ⟨(iteration + 1,
                  (decide_next_action env plan (iteration + 1) k).1, resE) :: steps,
                ?_, ?_, ?_, ?_, ?_⟩
              · simp only [hTr]
                simp [hTrE, investEntry]
              · simp only [hF]
                simp [hFE, findingEntry]
              · simp only [hTools]
                simp [hToolsE]
                omega
              · exact ⟨rfl, hChain⟩
              · simp
                omega
            · -- continuation falsy: the loop exits after this iteration
              simp only [Except.ok.injEq, Prod.mk.injEq] at h
              obtain ⟨h1, -⟩ := h
              subst h1
              refine ⟨[(iteration + 1,
                  (decide_next_action env plan (iteration + 1) k).1, resE)],
                ?_, ?_, ?_, ?_, ?_⟩
              · simp [hTrE, investEntry]
              · simp [hFE, findingEntry]
              · simp [hToolsE]
              · exact ⟨rfl, trivial⟩
              · simp
    · -- guard false
      simp only [Except.ok.injEq, Prod.mk.injEq] at h
      obtain ⟨h1, -⟩ := h
      subst h1
      exact ⟨[], by simp [chainFrom]⟩

/-- Fuel covering the remaining iteration budget is immaterial: the fuelled
loop is the exact semantics of the source `while` loop. -/
theorem investigationLoop_extra_fuel (cfg : AgentConfig) (env : Env) (plan : JVal) :
    ∀ (fuel : Nat) (iteration : Int) (st : AgentState) (k : Nat),
      cfg.maxIterations - iteration ≤ (fuel : Int) →
      investigationLoop cfg env plan (fuel + 1) iteration st k =
        investigationLoop cfg env plan fuel iteration st k := by
  intro fuel
  induction fuel with
  | zero =>
    intro iteration st k hb
    have hng : ¬ iteration < cfg.maxIterations := by omega
    simp only [investigationLoop, if_neg hng]
  | succ fuel ih =>
    intro iteration st k hb
    by_cases hg : iteration < cfg.maxIterations
    · simp only [investigationLoop, if_pos hg]
      split
      · rfl
      · split
        · rfl
        · split
          · rfl
          · split
            · exact ih (iteration + 1) _ _ (by omega)
            · rfl
    · simp only [investigationLoop, if_neg hg]

/-- On an object the dispatch of `_execute_action` cannot raise. -/
theorem execute_action_obj_ok (env : Env) (st : AgentState) (k : Nat)
    (fs : List (String × JVal)) :
    ∃ out, execute_action env st k (JVal.jobj fs) = Except.ok out := by
  unfold execute_action
  simp [pyDictGet]

/-- The subscript on a decided action succeeds when the response is
action-safe. -/
theorem pySub_of_decide_safe (env : Env) (plan : JVal) (iteration : Int) (k : Nat)
    (h : actionSafe (env k)) :
    ∃ a, pySub (decide_next_action env plan iteration k).1 "action" = Except.ok a := by
  unfold decide_next_action
  rcases h with h | ⟨fs, v, h, hl⟩
  · simp [h, pySub, List.lookup]
  · simp [h, pySub, hl]

/-- Over action-safe responses the loop never raises. -/
theorem investigationLoop_safe_ok (cfg : AgentConfig) (env : Env) (plan : JVal)
    (hsafe : ∀ m, actionSafe (env m)) :
    ∀ (fuel : Nat) (iteration : Int) (st : AgentState) (k : Nat),
      ∃ p, investigationLoop cfg env plan fuel iteration st k = Except.ok p := by
  intro fuel
  induction fuel with
  | zero =>
    intro iteration st k
    exact ⟨_, rfl⟩
  | succ fuel ih =>
    intro iteration st k
    by_cases hg : iteration < cfg.maxIterations
    · simp only [investigationLoop, if_pos hg]
      obtain ⟨a, ha⟩ := pySub_of_decide_safe env plan (iteration + 1) k (hsafe k)
      rw [ha]
      by_cases hc : a.isStr "complete"
      · simp [hc]
      · simp only [hc, if_false, Bool.false_eq_true]
        have hobj : ∃ fs, (decide_next_action env plan (iteration + 1) k).1 =
            JVal.jobj fs := by
          unfold decide_next_action
          rcases hsafe k with h | ⟨fs, v, h, -⟩
          · simp [h]
          · simp [h]
        obtain ⟨fs, hfs⟩ := hobj
        rw [hfs]
        obtain ⟨out, hout⟩ :=
          execute_action_obj_ok env st (decide_next_action env plan (iteration + 1) k).2 fs
        obtain ⟨stE, resE, kE⟩ := out
        rw [hout]
        dsimp only
        split
        · exact ih _ _ _
        · exact ⟨_, rfl⟩
    · simp only [investigationLoop, if_neg hg]
      exact ⟨_, rfl⟩

/-- Consecutively indexed steps yield a consecutively indexed all-investigation
trace segment. -/
theorem investChainFrom_of_chainFrom :
    ∀ (steps : List (Int × JVal × JVal)) (n : Int),
      chainFrom n steps → investChainFrom n (steps.map investEntry) := by
  intro steps
  induction steps with
  | nil => intro n _; trivial
  | cons x rest ih =>
    intro n hc
    obtain ⟨i, a, r⟩ := x
    obtain ⟨h1, h2⟩ := hc
    exact ⟨h1, ih (n + 1) h2⟩

/-- An investigation entry in the mapped trace segment comes from a recorded
step. -/
theorem mem_of_mem_map_investEntry (steps : List (Int × JVal × JVal))
    (i : Int) (a r : JVal)
    (h : TraceEntry.investigation i a r ∈ steps.map investEntry) :
    (i, a, r) ∈ steps := by
  rw [List.mem_map] at h
  obtain ⟨x, hx, hxe⟩ := h
  obtain ⟨i2, a2, r2⟩ := x
  simp only [investEntry, TraceEntry.investigation.injEq] at hxe
  obtain ⟨h1, h2, h3⟩ := hxe
  subst h1; subst h2; subst h3
  exact hx

/-- A completed run comes from a completed loop over the initial state, and its
report is the text of the next response after the loop. -/
theorem run_ok_elim (cfg : AgentConfig) (env : Env) (res : AgentRunResult)
    (h : AgenticAI.run cfg env = Except.ok res) :
    ∃ st k1,
      investigationLoop cfg env (create_analysis_plan env 0).1
          cfg.maxIterations.toNat 0
          ⟨[TraceEntry.planning (create_analysis_plan env 0).1], [], []⟩ 1 =
        Except.ok (st, k1) ∧
      res = ⟨(env k1).text, st.reasoning_trace, st.tools_used, st.findings⟩ := by
  simp only [AgenticAI.run] at h
  split at h
  · exact absurd h (by simp)
  · rename_i st k1 heq
    simp only [Except.ok.injEq] at h
    exact ⟨st, k1, heq, h.symm⟩

/-- C1, counterexample: with no transport failure anywhere, an action-selection
response that decodes to valid JSON lacking the `action` key makes
`next_action['action']` raise a `KeyError` that escapes `run`, so a
schema-mismatched output does cause the run to raise. -/
theorem C1_counterexample :
    AgenticAI.run ⟨3⟩ envC1cx = Except.error PyErr.keyError := rfl

/-- C1 (amended): a response failing to decode as JSON never causes a raise;
whenever every external response either fails to decode or decodes to a JSON
object carrying the `action` key, `run` completes with a full result dict.
Only a decoded action-selection response without an `action` key (or a
non-object) raises, as the counterexample shows. -/
theorem C1_theorem (cfg : AgentConfig) (env : Env)
    (hsafe : ∀ m, actionSafe (env m)) :
    ∃ res, AgenticAI.run cfg env = Except.ok res := by
  obtain ⟨⟨st, k1⟩, hp⟩ :=
    investigationLoop_safe_ok cfg env (create_analysis_plan env 0).1 hsafe
      cfg.maxIterations.toNat 0
      ⟨[TraceEntry.planning (create_analysis_plan env 0).1], [], []⟩ 1
  simp only [AgenticAI.run]
  rw [show (create_analysis_plan env 0).2 = 1 from rfl, hp]
  exact ⟨_, rfl⟩

/-- C1, witness: over an environment of undecodable responses the run
completes. -/
theorem C1_witness : ∃ res, AgenticAI.run ⟨2⟩ envC1w = Except.ok res :=
  C1_theorem ⟨2⟩ envC1w (fun _ => Or.inl rfl)

/-- C2: for `iteration >= maxIterations - 1` the continuation check returns the
Python `False` immediately, for every environment and without consuming any
external call (the call counter is returned unchanged), hence independently of
any evaluator output. -/
theorem C2_theorem (cfg : AgentConfig) (env : Env) (result : JVal)
    (iteration : Int) (k : Nat)
    (h : iteration ≥ cfg.maxIterations - 1) :
    should_continue_investigation cfg env result iteration k =
      (JVal.jbool false, k) := by
  simp only [should_continue_investigation, if_pos h]

/-- C2, witness: at `iteration = maxIterations - 1 = 4` the check returns
false although the evaluator environment would answer continue = true. -/
theorem C2_witness :
    (4 : Int) ≥ (5 : Int) - 1 ∧
      should_continue_investigation ⟨5⟩ envC2w JVal.jnull 4 7 =
        (JVal.jbool false, 7) :=
  ⟨by decide, C2_theorem ⟨5⟩ envC2w JVal.jnull 4 7 (by decide)⟩

/-- C3, counterexample: with `maxIterations = 2` and a first action-selection
response decoding to a completion action, the run completes with zero
investigation trace entries, so `1 <= iterations_performed` with the trace
count equal to it fails. -/
theorem C3_counterexample :
    AgenticAI.run ⟨2⟩ envC3cx =
      Except.ok ⟨"t3",
        [TraceEntry.planning (JVal.jobj [("raw_plan", JVal.jstr "t3")])],
        [], []⟩ := rfl

/-- C3 (amended): for `maxIterations >= 1`, every completed run records as many
investigation trace entries as findings (one per executed iteration) and at
most `maxIterations` of them; the count can be 0 when the first decided action
is a completion, so the claimed lower bound of 1 does not hold. -/
theorem C3_theorem (cfg : AgentConfig) (env : Env) (res : AgentRunResult)
    (hge : 1 ≤ cfg.maxIterations)
    (h : AgenticAI.run cfg env = Except.ok res) :
    countInvest res.reasoning_trace = res.findings.length ∧
      countInvest res.reasoning_trace ≤ cfg.maxIterations.toNat := by
  obtain ⟨st, k1, hloop, hres⟩ := run_ok_elim cfg env res h
  obtain ⟨steps, hTr, hF, -, -, hLen⟩ :=
    investigationLoop_spec cfg env _ _ _ _ _ _ _ hloop
  subst hres
  constructor
  · simp [hTr, hF, countInvest_append, countInvest, countInvest_map_investEntry]
  · simp [hTr, countInvest_append, countInvest, countInvest_map_investEntry]
    exact hLen

/-- C3, witness: a completed run with `maxIterations = 2`. -/
theorem C3_witness :
    (1 : Int) ≤ (2 : Int) ∧
      (countInvest resC3w.reasoning_trace = resC3w.findings.length ∧
        countInvest resC3w.reasoning_trace ≤ (2 : Int).toNat) :=
  ⟨by decide, C3_theorem ⟨2⟩ envC3w resC3w (by decide) rfl⟩

/-- C4, counterexample: with `maxIterations = 1` a full investigation iteration
does occur: an action is decided and executed, the findings map gets one
entry, the trace gets one investigation entry and `tools_used` records the
dispatch, contradicting the claimed zero iterations and empty findings. -/
theorem C4_counterexample :
    AgenticAI.run ⟨1⟩ envC4cx =
      Except.ok ⟨"r4",
        [TraceEntry.planning (JVal.jobj [("raw_plan", JVal.jstr "r4")]),
         TraceEntry.investigation 1 (JVal.jobj [("action", JVal.jstr "analyze")])
           (JVal.jobj [("insight", JVal.jstr "insight text")])],
        [JVal.jstr "analyze"],
        [("iteration_1", JVal.jobj [("insight", JVal.jstr "insight text")])]⟩ := rfl

/-- C4 (amended): with `maxIterations = 1` at most one investigation iteration
occurs on every completed run: at most one investigation trace entry, at most
one finding and at most one tools-used entry are recorded (zero exactly when
the single decided action is a completion), and the run then synthesizes. -/
theorem C4_theorem (env : Env) (res : AgentRunResult)
    (h : AgenticAI.run ⟨1⟩ env = Except.ok res) :
    countInvest res.reasoning_trace ≤ 1 ∧ res.findings.length ≤ 1 ∧
      res.tools_used.length ≤ 1 := by
  obtain ⟨st, k1, hloop, hres⟩ := run_ok_elim ⟨1⟩ env res h
  obtain ⟨steps, hTr, hF, hTools, -, hLen⟩ :=
    investigationLoop_spec _ env _ _ _ _ _ _ _ hloop
  subst hres
  refine ⟨?_, ?_, ?_⟩
  · simp [hTr, countInvest_append, countInvest, countInvest_map_investEntry]
    simpa using hLen
  · simp [hF]
    simpa using hLen
  · simp [hTools]
    simpa using hLen

/-- C4, witness: a completed run with `maxIterations = 1`. -/
theorem C4_witness :
    countInvest resC4w.reasoning_trace ≤ 1 ∧ resC4w.findings.length ≤ 1 ∧
      resC4w.tools_used.length ≤ 1 :=
  C4_theorem envC4w resC4w rfl

/-- C5, counterexample: when the action-selection response on iteration 1
decodes to a completion action, the loop breaks before appending any trace
entry, so the completed run has zero investigation entries, not exactly one as
claimed. -/
theorem C5_counterexample :
    AgenticAI.run ⟨3⟩ envC5cx =
      Except.ok ⟨"s5",
        [TraceEntry.planning (JVal.jobj [("raw_plan", JVal.jstr "s5")])],
        [], []⟩ := rfl

/-- C5 (amended): if the action-selection response on iteration 1 decodes to
any value whose `action` subscript is the string `complete` (an Action of kind
complete, whatever other fields it carries), the run returns with the planning
entry as the whole trace (zero investigation entries), an empty tools-used
list, empty findings, and the report taken from the immediately following
synthesis call. -/
theorem C5_theorem (cfg : AgentConfig) (env : Env) (v : JVal)
    (hge : 1 ≤ cfg.maxIterations)
    (hdec : (env 1).decoded = some v)
    (hact : pySub v "action" = Except.ok (JVal.jstr "complete")) :
    AgenticAI.run cfg env =
      Except.ok ⟨(env 2).text,
        [TraceEntry.planning (create_analysis_plan env 0).1], [], []⟩ := by
  obtain ⟨n, hn⟩ : ∃ n, cfg.maxIterations.toNat = n + 1 := by
    refine ⟨cfg.maxIterations.toNat - 1, ?_⟩
    omega
  have hpos : (0 : Int) < cfg.maxIterations := by omega
  simp only [AgenticAI.run, hn]
  rw [show (create_analysis_plan env 0).2 = 1 from rfl]
  simp only [investigationLoop, if_pos hpos, decide_next_action, hdec, hact]
  rfl

/-- C5, witness: a run with `maxIterations = 3` whose iteration-1 response
decodes to a completion action carrying an extra `reasoning` field. -/
theorem C5_witness :
    (1 : Int) ≤ (3 : Int) ∧
      (envC5w 1).decoded = some (JVal.jobj [("action", JVal.jstr "complete"),
        ("reasoning", JVal.jstr "all questions answered")]) ∧
      pySub (JVal.jobj [("action", JVal.jstr "complete"),
          ("reasoning", JVal.jstr "all questions answered")]) "action" =
        Except.ok (JVal.jstr "complete") ∧
      AgenticAI.run ⟨3⟩ envC5w =
        Except.ok ⟨(envC5w 2).text,
          [TraceEntry.planning (create_analysis_plan envC5w 0).1], [], []⟩ :=
  ⟨by decide, rfl, rfl,
    C5_theorem ⟨3⟩ envC5w
      (JVal.jobj [("action", JVal.jstr "complete"),
        ("reasoning", JVal.jstr "all questions answered")])
      (by decide) rfl rfl⟩

/-- C6, counterexample: a response that decodes to valid JSON not matching the
expected schema is returned as-is by `_decide_next_action` (here an object
with only a `target` field), not replaced by the completion fallback, and the
fallback rationale in the source reads
`Unable to parse action, completing analysis`, not `unable to parse action`. -/
theorem C6_counterexample :
    (decide_next_action envC6cx (JVal.jstr "plan") 1 0).1 =
      JVal.jobj [("target", JVal.jstr "revenue")] := rfl

/-- C6 (amended): for every response text that cannot be decoded as JSON,
`_decide_next_action` returns the fallback dict with `action = complete` and
`reasoning = Unable to parse action, completing analysis`, and the loop
thereupon terminates that iteration with its accumulators unchanged, consuming
exactly the one decide call; decoded responses are returned as-is even when
they mismatch the schema. -/
theorem C6_theorem (cfg : AgentConfig) (env : Env) (plan : JVal) (fuel : Nat)
    (iteration : Int) (st : AgentState) (k : Nat)
    (hdec : (env k).decoded = none)
    (hlt : iteration < cfg.maxIterations) :
    (decide_next_action env plan (iteration + 1) k).1 =
        JVal.jobj
          [("action", JVal.jstr "complete"),
           ("reasoning", JVal.jstr "Unable to parse action, completing analysis")] ∧
      investigationLoop cfg env plan (fuel + 1) iteration st k =
        Except.ok (st, k + 1) := by
  constructor
  · simp [decide_next_action, hdec]
  · simp only [investigationLoop, if_pos hlt, decide_next_action, hdec]
    rfl

/-- C6, witness: an undecodable response at call 5 with the loop at
iteration 0 of a ceiling of 2. -/
theorem C6_witness :
    (decide_next_action envC6w JVal.jnull 1 5).1 =
        JVal.jobj
          [("action", JVal.jstr "complete"),
           ("reasoning", JVal.jstr "Unable to parse action, completing analysis")] ∧
      investigationLoop ⟨2⟩ envC6w JVal.jnull 2 0 ⟨[], [], []⟩ 5 =
        Except.ok (⟨[], [], []⟩, 6) :=
  C6_theorem ⟨2⟩ envC6w JVal.jnull 1 0 ⟨[], [], []⟩ 5 rfl (by decide)

/-- C7: an action whose kind is none of analyze, calculate, compare and
investigate_anomaly yields the `unknown_action` result without raising, and
the attempted kind is still appended to `tools_used`. -/
theorem C7_theorem (env : Env) (st : AgentState) (k : Nat) (action kind : JVal)
    (hget : pyDictGet action "action" (JVal.jstr "analyze") = Except.ok kind)
    (h1 : kind.isStr "analyze" = false)
    (h2 : kind.isStr "calculate" = false)
    (h3 : kind.isStr "compare" = false)
    (h4 : kind.isStr "investigate_anomaly" = false) :
    execute_action env st k action =
      Except.ok (⟨st.reasoning_trace, st.tools_used ++ [kind], st.findings⟩,
        JVal.jobj [("status", JVal.jstr "unknown_action")], k) := by
  simp only [execute_action, hget, h1, h2, h3, h4]
  rfl

/-- C7, witness: an action of unregistered kind `mystery_probe`. -/
theorem C7_witness :
    pyDictGet (JVal.jobj [("action", JVal.jstr "mystery_probe")]) "action"
        (JVal.jstr "analyze") = Except.ok (JVal.jstr "mystery_probe") ∧
      (JVal.jstr "mystery_probe").isStr "analyze" = false ∧
      (JVal.jstr "mystery_probe").isStr "calculate" = false ∧
      (JVal.jstr "mystery_probe").isStr "compare" = false ∧
      (JVal.jstr "mystery_probe").isStr "investigate_anomaly" = false ∧
      execute_action envC7w ⟨[], [], []⟩ 4
          (JVal.jobj [("action", JVal.jstr "mystery_probe")]) =
        Except.ok (⟨[], [JVal.jstr "mystery_probe"], []⟩,
          JVal.jobj [("status", JVal.jstr "unknown_action")], 4) :=
  ⟨rfl, rfl, rfl, rfl, rfl,
    C7_theorem envC7w ⟨[], [], []⟩ 4 (JVal.jobj [("action", JVal.jstr "mystery_probe")])
      (JVal.jstr "mystery_probe") rfl rfl rfl rfl rfl⟩

/-- C8: in every completed run the first trace entry is the planning entry,
every subsequent entry is an investigation entry with indices consecutive
from 1 in trace order, and each investigation entry with index i has a finding
keyed `iteration_i` carrying the same result. -/
theorem C8_theorem (cfg : AgentConfig) (env : Env) (res : AgentRunResult)
    (h : AgenticAI.run cfg env = Except.ok res) :
    ∃ p rest, res.reasoning_trace = TraceEntry.planning p :: rest ∧
      investChainFrom 1 rest ∧
      ∀ i a r, TraceEntry.investigation i a r ∈ rest →
        ("iteration_" ++ toString i, r) ∈ res.findings := by
  obtain ⟨st, k1, hloop, hres⟩ := run_ok_elim cfg env res h
  obtain ⟨steps, hTr, hF, -, hChain, -⟩ :=
    investigationLoop_spec cfg env _ _ _ _ _ _ _ hloop
  subst hres
  refine ⟨(create_analysis_plan env 0).1, steps.map investEntry, ?_, ?_, ?_⟩
  · simpa using hTr
  · exact investChainFrom_of_chainFrom steps 1 (by simpa using hChain)
  · intro i a r hmem
    have hx := mem_of_mem_map_investEntry steps i a r hmem
    have hmemf : findingEntry (i, a, r) ∈ steps.map findingEntry :=
      List.mem_map_of_mem findingEntry hx
    simp only [hF]
    simpa [findingEntry] using hmemf

/-- C8, witness: a completed two-iteration run. -/
theorem C8_witness :
    ∃ p rest, resC8w.reasoning_trace = TraceEntry.planning p :: rest ∧
      investChainFrom 1 rest ∧
      ∀ i a r, TraceEntry.investigation i a r ∈ rest →
        ("iteration_" ++ toString i, r) ∈ resC8w.findings :=
  C8_theorem ⟨3⟩ envC8w resC8w rfl

/-- C9: an action dict without an `action` key is dispatched to the analyze
provider (the default kind), `analyze` is appended to `tools_used`, and the
result is the analyze call outcome, not the `unknown_action` tag. -/
theorem C9_theorem (env : Env) (st : AgentState) (k : Nat)
    (fs : List (String × JVal))
    (hmiss : fs.lookup "action" = none) :
    execute_action env st k (JVal.jobj fs) =
      Except.ok (⟨st.reasoning_trace, st.tools_used ++ [JVal.jstr "analyze"],
          st.findings⟩,
        (perform_analysis env k).1, (perform_analysis env k).2) := by
  simp only [execute_action, pyDictGet, hmiss]
  rfl

/-- C9, witness: an action dict holding only a `method` field. -/
theorem C9_witness :
    List.lookup "action" [("method", JVal.jstr "mean")] = none ∧
      execute_action envC9w ⟨[], [], []⟩ 0
          (JVal.jobj [("method", JVal.jstr "mean")]) =
        Except.ok (⟨[], [JVal.jstr "analyze"], []⟩,
          (perform_analysis envC9w 0).1, (perform_analysis envC9w 0).2) :=
  ⟨rfl, C9_theorem envC9w ⟨[], [], []⟩ 0 [("method", JVal.jstr "mean")] rfl⟩

/-- C10: below the ceiling, an evaluator response that decodes to a JSON
object lacking the `continue` key makes the continuation check return the
default false after consuming the one evaluator call, so the default applies
on key absence, not only on decode failure. -/
theorem C10_theorem (cfg : AgentConfig) (env : Env) (result : JVal)
    (iteration : Int) (k : Nat) (fs : List (String × JVal))
    (hlt : iteration < cfg.maxIterations - 1)
    (hdec : (env k).decoded = some (JVal.jobj fs))
    (hmiss : fs.lookup "continue" = none) :
    should_continue_investigation cfg env result iteration k =
      (JVal.jbool false, k + 1) := by
  have hng : ¬ iteration ≥ cfg.maxIterations - 1 := by omega
  simp only [should_continue_investigation, if_neg hng, hdec, pyDictGet, hmiss]
  rfl

/-- C10, witness: iteration 0 of a ceiling of 3 with an evaluator response
decoding to an object without the `continue` key. -/
theorem C10_witness :
    (0 : Int) < (3 : Int) - 1 ∧
      (envC10w 5).decoded = some (JVal.jobj [("reasoning", JVal.jstr "done")]) ∧
      List.lookup "continue" [("reasoning", JVal.jstr "done")] = none ∧
      should_continue_investigation ⟨3⟩ envC10w (JVal.jstr "r") 0 5 =
        (JVal.jbool false, 6) :=
  ⟨by decide, rfl, rfl,
    C10_theorem ⟨3⟩ envC10w (JVal.jstr "r") 0 5 [("reasoning", JVal.jstr "done")]
      (by decide) rfl rfl⟩
